import Mathlib

/-!
Verification development for the morning-digest aggregation pipeline
(src/main.py).  Python strings are modelled as lists of characters,
Python datetime values as integer timestamps, and fallible Python code
(uncaught exceptions, sys.exit) as Except-valued functions.  Every
definition below is translated from the source file src/main.py; the
comments name the translated lines.
-/

/-- Strings of the modelled program: Python str as a list of characters. -/
abbrev Str := List Char

/-- Coercion from Lean string literals to the model's string type. -/
def str (s : String) : Str := s.toList

/-- Decidable equality for Except values, used to evaluate the model on
concrete inputs. -/
instance {ε α : Type} [DecidableEq ε] [DecidableEq α] : DecidableEq (Except ε α) :=
  fun x y =>
    match x, y with
    | Except.ok a, Except.ok b => decidable_of_iff (a = b) (by simp)
    | Except.ok _, Except.error _ => Decidable.isFalse (by simp)
    | Except.error _, Except.ok _ => Decidable.isFalse (by simp)
    | Except.error e, Except.error f => decidable_of_iff (e = f) (by simp)

/-- Model of Python datetime values as they occur in the program.
The constructor dt is a datetime.datetime carrying a timestamp in seconds
(as produced by datetime.fromtimestamp(mktime(...)) at src/main.py:169);
the constructor dateOnly is a datetime.date carrying a day ordinal (as
produced by date.today() at src/main.py:259).  The two kinds are distinct
Python types with different attributes and incompatible arithmetic. -/
inductive PyDate : Type
  | dt (t : Int)
  | dateOnly (d : Int)
deriving DecidableEq

/-- Article entity, src/main.py:242-261. -/
structure Article : Type where
  url : Str
  title : Str
  author : Str
  full_text : Str
  date : PyDate
deriving DecidableEq

/-- Model of kwargs.get(k) followed by a Python truthiness test on the
resulting string: absent keys give None (falsy) and the empty string is
also falsy, so both collapse to none. -/
def pyTruthyStr : Option Str → Option Str
  | some s => if s = [] then none else some s
  | none => none

/-- Article.__init__, src/main.py:247-261.  Fields title, author and
full_text are set only when the corresponding kwargs value is truthy
(kwargs.get at lines 252, 254, 260), so an empty string supplied by the
source behaves like an absent key.  The date kwarg (a datetime) is always
truthy when present; when absent, date.today() is used (line 259). -/
def mkArticle (url : Str) (kwTitle kwAuthor kwFull : Option Str)
    (kwDate : Option PyDate) (today : Int) : Article :=
  { url := url
    title := match pyTruthyStr kwTitle with | some s => s | none => []
    author := match pyTruthyStr kwAuthor with | some s => s | none => str "Unknown"
    full_text := match pyTruthyStr kwFull with | some s => s | none => []
    date := match kwDate with | some d => d | none => PyDate.dateOnly today }

/-- Normalized feed entry as consumed by Collection._download_url
(src/main.py:158-174): optional link, title, author, description and
published time (the published_parsed struct is modelled directly by the
timestamp that mktime would produce from it). -/
structure RawEntry : Type where
  link : Option Str
  title : Option Str
  author : Option Str
  description : Option Str
  published_parsed : Option Int
deriving DecidableEq

/-- Collection, src/main.py:118-135.  The timedelta field holds the
recency window in seconds (none models Python None); fetch_original holds
the raw configuration string (none models the initial False, matching the
truthiness test at src/main.py:81); article_urls models the dedup set as
a list of its members. -/
structure Collection : Type where
  id : Str
  name : Str
  urls : List Str
  articles : List Article
  timedelta : Option Int
  fetch_original : Option Str
  do_readability : Bool
  add_title : Bool
  article_urls : List Str
deriving DecidableEq

/-- Collection.__init__, src/main.py:125-135. -/
def Collection.init (collection_id : Str) (urls : List Str) (name : Str) : Collection :=
  { id := collection_id
    name := name
    urls := urls
    articles := []
    timedelta := none
    fetch_original := none
    do_readability := true
    add_title := true
    article_urls := [] }

/-- Model of Python int(s): optional surrounding whitespace, an optional
sign, then a nonempty digit run in which single underscores may separate
digits.  Non-ASCII digit forms are outside the modelled character set. -/
def pyDigitVal (c : Char) : Nat := c.toNat - 48

/-- Digit-run parser for pyToInt?: accepts digits with single interior
underscores, accumulating the value. -/
def pyDigitsAux (acc : Nat) : Str → Option Nat
  | [] => some acc
  | '_' :: c :: t => if c.isDigit then pyDigitsAux (acc * 10 + pyDigitVal c) t else none
  | '_' :: [] => none
  | c :: t => if c.isDigit then pyDigitsAux (acc * 10 + pyDigitVal c) t else none

/-- Digit-run parser entry point: the run must start with a digit. -/
def pyDigits : Str → Option Nat
  | [] => none
  | c :: t => if c.isDigit then pyDigitsAux (pyDigitVal c) t else none

/-- Whitespace characters stripped by Python int(). -/
def pyIsSpace (c : Char) : Bool :=
  c = ' ' || c = '\t' || c = '\n' || c = '\r' || c = '\x0b' || c = '\x0c'

/-- Strip leading whitespace. -/
def pyDropWs : Str → Str
  | [] => []
  | c :: t => if pyIsSpace c then pyDropWs t else c :: t

/-- Strip surrounding whitespace. -/
def pyStripWs (s : Str) : Str := ((pyDropWs s.reverse).reverse : Str) |> pyDropWs

/-- Model of Python int(s) for the value strings the program feeds it
(src/main.py:143): some n on success, none when int() raises ValueError. -/
def pyToInt? (s : Str) : Option Int :=
  match pyStripWs s with
  | '+' :: t => (pyDigits t).map fun n => (n : Int)
  | '-' :: t => (pyDigits t).map fun n => -(n : Int)
  | t => (pyDigits t).map fun n => (n : Int)

/-- Collection.set_allowed_timedelta for string arguments,
src/main.py:137-148: the named presets day, week and month map to 1, 7
and 30 days (src/main.py:119-123), any other string is passed to int()
as a day count, and a ValueError there reaches sys.exit(1), modelled as
the error case.  Durations are in seconds (one day is 86400). -/
def set_allowed_timedelta (delta : Str) : Except Unit Int :=
  if delta = str "day" then Except.ok 86400
  else if delta = str "week" then Except.ok (7 * 86400)
  else if delta = str "month" then Except.ok (30 * 86400)
  else match pyToInt? delta with
    | some n => Except.ok (n * 86400)
    | none => Except.error ()

/-- Recency test of src/main.py:175-177: the Python condition is
(self._timedelta and now - article.date > self._timedelta).  A None
window is falsy and so is timedelta(0), so in both cases the subtraction
is never evaluated and the entry is kept.  With a nonzero window the
subtraction datetime.now() - article.date is evaluated: against a
datetime it compares timestamps, against a date.today() fallback it
raises TypeError (datetime minus date is unsupported), modelled as the
error case.  Returns whether the entry is kept. -/
def recencyKeep : Option Int → Int → PyDate → Except Unit Bool
  | none, _, _ => Except.ok true
  | some w, now, d =>
    if w = 0 then Except.ok true
    else match d with
      | PyDate.dt t => Except.ok (!(decide (now - t > w)))
      | PyDate.dateOnly _ => Except.error ()

/-- Append a fresh article: the two updates at src/main.py:179-180
(add the url to the dedup set, append the article). -/
def pushArticle (c : Collection) (a : Article) : Collection :=
  { c with article_urls := a.url :: c.article_urls
           articles := c.articles ++ [a] }

/-- Filter steps of the entry loop of Collection._download_url on the
constructed Article, src/main.py:174-180: drop articles
older than the recency window (a TypeError there kills the run); drop
entries whose url is already in the dedup set; otherwise record the url
and append the article. -/
def processArticle (now : Int) (c : Collection) (article : Article) : Except Unit Collection :=
  match recencyKeep c.timedelta now article.date with
  | Except.error _ => Except.error ()
  | Except.ok false => Except.ok c
  | Except.ok true =>
    if article.url ∈ c.article_urls then Except.ok c
    else Except.ok (pushArticle c article)

/-- Body of the entry loop of Collection._download_url,
src/main.py:158-180: skip entries lacking link or title, build attrs from
the fields present on the entry, construct the Article and run the filter
steps on it. -/
def processEntry (now today : Int) (c : Collection) (e : RawEntry) : Except Unit Collection :=
  match e.link, e.title with
  | some link, some _ =>
    processArticle now c (mkArticle link e.title e.author e.description
      (e.published_parsed.map PyDate.dt) today)
  | _, _ => Except.ok c

/-- Collection._download_url, src/main.py:154-181, for one source whose
parse produced the given entries, with now the datetime.now() snapshot of
line 157 and today the date.today() value used for date fallbacks. -/
def downloadUrl (now today : Int) : Collection → List RawEntry → Except Unit Collection
  | c, [] => Except.ok c
  | c, e :: es =>
    match processEntry now today c e with
    | Except.ok c' => downloadUrl now today c' es
    | Except.error _ => Except.error ()

/-- Collection.download_feed, src/main.py:150-152: ingest every source in
order into the same collection state.  Each source carries its own
(now, today) snapshot and its parsed entries. -/
def downloadFeed : Collection → List (Int × Int × List RawEntry) → Except Unit Collection
  | c, [] => Except.ok c
  | c, (now, today, es) :: rest =>
    match downloadUrl now today c es with
    | Except.ok c' => downloadFeed c' rest
    | Except.error _ => Except.error ()

/-- Outcome of the network interaction performed by one call to
Article.get_full_text (src/main.py:263-285).  The success case carries the
decoded html; decodeError models a UnicodeDecodeError during decoding
(caught at line 278); httpError models an HTTPError raised by urlopen for
an http status failure (caught at line 282); otherError models any other
exception escaping the try block, for example the urllib URLError raised
on transport-level failures (unreachable host, refused connection,
timeout), which matches neither handler and propagates. -/
inductive FetchOutcome : Type
  | success (html : Str)
  | decodeError
  | httpError
  | otherError
deriving DecidableEq

/-- Article.get_full_text, src/main.py:263-285, as a function of the fetch
outcome.  The extract parameter is the external readability collaborator
Document(html).summary (line 275).  On success the body is replaced by the
extracted or raw html depending on the readability flag; the two caught
exception classes log a message and leave the article untouched; any
other exception propagates (error case).  Returns the updated article and
the log messages emitted. -/
def get_full_text (extract : Str → Str) (readability : Bool) (a : Article)
    (o : FetchOutcome) : Except Unit (Article × List Str) :=
  match o with
  | FetchOutcome.success html =>
    Except.ok ({ a with full_text := if readability then extract html else html }, [])
  | FetchOutcome.decodeError =>
    Except.ok (a, [str "UnicodeDecodeError (invalid charset) decoding: " ++ a.url])
  | FetchOutcome.httpError =>
    Except.ok (a, [str "HTTP Error while downloading URL" ++ a.url])
  | FetchOutcome.otherError => Except.error ()

/-- Total description of the article produced by get_full_text on the
outcomes it survives (used to state per-article independence). -/
def fetchOk (extract : Str → Str) (readability : Bool) (a : Article)
    (o : FetchOutcome) : Article :=
  match o with
  | FetchOutcome.success html =>
    { a with full_text := if readability then extract html else html }
  | _ => a

/-- Log messages emitted by get_full_text on the outcomes it survives. -/
def fetchLog (a : Article) (o : FetchOutcome) : List Str :=
  match o with
  | FetchOutcome.success _ => []
  | FetchOutcome.decodeError => [str "UnicodeDecodeError (invalid charset) decoding: " ++ a.url]
  | FetchOutcome.httpError => [str "HTTP Error while downloading URL" ++ a.url]
  | FetchOutcome.otherError => []

/-- Collection.download_articles with the default limit=None,
src/main.py:183-196: call get_full_text on every article in order.  The
fetches parameter gives the network outcome for each requested url.  An
exception escaping one get_full_text call aborts the loop (and the run).
Progress-bar bookkeeping is ui-only and not modelled. -/
def download_articles (extract : Str → Str) (readability : Bool)
    (fetches : Str → FetchOutcome) : List Article → Except Unit (List Article × List Str)
  | [] => Except.ok ([], [])
  | a :: rest =>
    match get_full_text extract readability a (fetches a.url) with
    | Except.error _ => Except.error ()
    | Except.ok (a', lg) =>
      match download_articles extract readability fetches rest with
      | Except.error _ => Except.error ()
      | Except.ok (rest', lgs) => Except.ok (a' :: rest', lg ++ lgs)

/-- Sort key used by Collection._sort (src/main.py:201-202): the article
date.  Comparing two values of the same kind compares the carried number;
the model only ever compares keys of articles in a homogeneous list. -/
def dateKey : PyDate → Int
  | PyDate.dt t => t
  | PyDate.dateOnly d => d

/-- Stable descending insertion: place the new article before the first
existing article whose key is not larger. -/
def insertDesc (a : Article) : List Article → List Article
  | [] => [a]
  | b :: l => if dateKey b.date ≤ dateKey a.date then a :: b :: l
              else b :: insertDesc a l

/-- Stable sort by descending date key.  Python list.sort with
key=lambda x: x.date and reverse=True is a stable descending sort; any
stable sort computes the same list, so insertion sort models it. -/
def sortDesc : List Article → List Article
  | [] => []
  | a :: l => insertDesc a (sortDesc l)

/-- Whether some article in the list carries a datetime date. -/
def hasDtDate (l : List Article) : Bool :=
  l.any fun a => match a.date with | PyDate.dt _ => true | _ => false

/-- Whether some article in the list carries a date.today() fallback. -/
def hasDateOnly (l : List Article) : Bool :=
  l.any fun a => match a.date with | PyDate.dateOnly _ => true | _ => false

/-- Collection._sort, src/main.py:201-202.  Sorting a list that mixes
datetime and date values raises TypeError in Python (those two types do
not compare), and any comparison sort of a mixed list must compare the
two kinds at some point, so the mixed case is the error case; otherwise
the stable descending sort is produced. -/
def pySortByDate (l : List Article) : Except Unit (List Article) :=
  if hasDtDate l && hasDateOnly l then Except.error ()
  else Except.ok (sortDesc l)

/-- Hour attribute of a datetime with the given timestamp. -/
def hourOfT (t : Int) : Int := (t.fdiv 3600).fmod 24

/-- Minute attribute of a datetime with the given timestamp. -/
def minuteOfT (t : Int) : Int := (t.fdiv 60).fmod 60

/-- Decimal digit character. -/
def natDigit (n : Nat) : Char := Char.ofNat (48 + n % 10)

/-- Zero-padded two-digit field, as produced by strftime for the d, H and
M conversions. -/
def twoDigitsNat (n : Nat) : Str := [natDigit (n / 10), natDigit n]

/-- Weekday names indexed from the epoch weekday (1970-01-01 was a
Thursday), C locale. -/
def weekdayNames : List Str :=
  [str "Thursday", str "Friday", str "Saturday", str "Sunday",
   str "Monday", str "Tuesday", str "Wednesday"]

/-- Month names, C locale. -/
def monthNames : List Str :=
  [str "January", str "February", str "March", str "April", str "May",
   str "June", str "July", str "August", str "September", str "October",
   str "November", str "December"]

/-- Civil date (year, month, day) from a day count since 1970-01-01,
standard era-based calendar conversion. -/
def civilFromDays (z0 : Int) : Int × Int × Int :=
  let z := z0 + 719468
  let era := z.fdiv 146097
  let doe := z - era * 146097
  let yoe := (doe - doe.fdiv 1460 + doe.fdiv 36524 - doe.fdiv 146096).fdiv 365
  let y := yoe + era * 400
  let doy := doe - (365 * yoe + yoe.fdiv 4 - yoe.fdiv 100)
  let mp := (5 * doy + 2).fdiv 153
  let d := doy - (153 * mp + 2).fdiv 5 + 1
  let m := mp + (if mp < 10 then 3 else (-9))
  (if m ≤ 2 then y + 1 else y, m, d)

/-- Model of strftime with the format used at src/main.py:291 (weekday
name, month name, zero-padded day), C locale. -/
def strftimeABd (t : Int) : Str :=
  let days := t.fdiv 86400
  let wd := weekdayNames.getD (days.fmod 7).toNat []
  let c := civilFromDays days
  wd ++ str ", " ++ monthNames.getD (c.2.1 - 1).toNat [] ++ str " " ++ twoDigitsNat c.2.2.toNat

/-- Model of strftime with the format used at src/main.py:293 (the
date-only format followed by zero-padded hour and minute). -/
def strftimeABdHM (t : Int) : Str :=
  strftimeABd t ++ str " " ++ twoDigitsNat (hourOfT t).toNat ++ str ":"
    ++ twoDigitsNat (minuteOfT t).toNat

/-- Article.getdatestr, src/main.py:287-293.  A datetime or date value is
always truthy so the early empty-string return is dead code.  Accessing
self.date.hour on a date.today() fallback raises AttributeError (date has
no hour attribute), modelled as the error case.  For a datetime, the
date-only format is used when hour and minute are both zero, the
date-plus-time format otherwise. -/
def getdatestr (a : Article) : Except Unit Str :=
  match a.date with
  | PyDate.dateOnly _ => Except.error ()
  | PyDate.dt t =>
    if hourOfT t = 0 ∧ minuteOfT t = 0 then Except.ok (strftimeABd t)
    else Except.ok (strftimeABdHM t)

/-- Byline construction of Collection.render_html, src/main.py:209-217:
an em element with author and date when the author is not the Unknown
sentinel, with the date alone otherwise. -/
def emSubtitle (a : Article) (datestr : Str) : Str :=
  if a.author ≠ str "Unknown" then
    str "<em>" ++ a.author ++ str ", " ++ datestr ++ str "</em>"
  else
    str "<em>" ++ datestr ++ str "</em>"

/-- Leading-segment test: leadMatch pat s is true when pat is an initial
segment of s. -/
def leadMatch : Str → Str → Bool
  | [], _ => true
  | _ :: _, [] => false
  | a :: pa, b :: sb => a == b && leadMatch pa sb

/-- Substring test: containsSub pat s is true when pat occurs
contiguously inside s. -/
def containsSub (pat : Str) : Str → Bool
  | [] => leadMatch pat []
  | c :: t => leadMatch pat (c :: t) || containsSub pat t

/-- Model of Python str.replace(old, new, 1): rewrite the leftmost
occurrence of old (if any) to new, leaving everything else unchanged. -/
def replaceFirstAux (old new : Str) : Str → Str
  | [] => []
  | c :: t =>
    if leadMatch old (c :: t) then new ++ (c :: t).drop old.length
    else c :: replaceFirstAux old new t

/-- Closing heading marker spliced against at src/main.py:236-237. -/
def h1close : Str := str "</h1>"

/-- Leading wrapper of the title-less article template,
src/main.py:229-231 (div opening plus the newline and indentation that
precede the body slot in the template literal). -/
def articleDivPre : Str := str "<div class=\"article morning-digest-article\">\n                "

/-- Trailing wrapper of the title-less article template,
src/main.py:229-231. -/
def articleDivSuf : Str := str "\n                </div>"

/-- Per-article fragment of Collection.render_html, src/main.py:207-238.
With add_title set, the explicit template with heading, byline and body
is emitted (lines 220-227).  Without it, the body is wrapped in the div
template and the byline is spliced in by replacing the first closing
heading marker (lines 229-237).  A date.today() fallback date makes
getdatestr raise, killing the render. -/
def renderArticle (add_title : Bool) (a : Article) : Except Unit Str :=
  match getdatestr a with
  | Except.error _ => Except.error ()
  | Except.ok datestr =>
    let subtitle := emSubtitle a datestr
    if add_title then
      Except.ok (str "<div class=\"article morning-digest-article\">\n                <h1>"
        ++ a.title ++ str "</h1>\n                " ++ subtitle ++ str "\n                "
        ++ a.full_text ++ str "\n                </div>")
    else
      Except.ok (replaceFirstAux h1close (h1close ++ subtitle)
        (articleDivPre ++ a.full_text ++ articleDivSuf))

/-- Article loop of Collection.render_html, src/main.py:207-238:
concatenate the per-article fragments in list order. -/
def renderList (add_title : Bool) : List Article → Except Unit Str
  | [] => Except.ok []
  | a :: rest =>
    match renderArticle add_title a with
    | Except.error _ => Except.error ()
    | Except.ok h =>
      match renderList add_title rest with
      | Except.error _ => Except.error ()
      | Except.ok t => Except.ok (h ++ t)

/-- Collection.render_html, src/main.py:204-239: sort freshly (the sort
mutates the article list in place, returned here as the updated
collection), then concatenate the per-article fragments of the sorted
list. -/
def Collection.render_html (c : Collection) : Except Unit (Str × Collection) :=
  match pySortByDate c.articles with
  | Except.error _ => Except.error ()
  | Except.ok sorted =>
    match renderList c.add_title sorted with
    | Except.error _ => Except.error ()
    | Except.ok html => Except.ok (html, { c with articles := sorted })

/-- Section wrapper of Newspaper.render_html, src/main.py:63-71 (the
template literal with its surrounding newlines and indentation). -/
def sectionTemplate (name id html : Str) : Str :=
  str "\n                <section class=collection id=" ++ id
    ++ str ">\n                <h1>" ++ name ++ str "</h1>\n                "
    ++ html ++ str "\n                </section>\n                "

/-- Collection loop of Newspaper.render_html, src/main.py:59-72: render
each collection, skip those whose render is the empty string, wrap the
others in a section element and concatenate. -/
def npLoop : List Collection → Except Unit Str
  | [] => Except.ok []
  | c :: rest =>
    match Collection.render_html c with
    | Except.error _ => Except.error ()
    | Except.ok p =>
      match npLoop rest with
      | Except.error _ => Except.error ()
      | Except.ok t =>
        Except.ok ((if p.1 = [] then [] else sectionTemplate c.name c.id p.1) ++ t)

/-- Newspaper.render_html, src/main.py:57-74: the section concatenation
wrapped in the html document shell. -/
def np_render (colls : List Collection) : Except Unit Str :=
  match npLoop colls with
  | Except.error _ => Except.error ()
  | Except.ok body => Except.ok (str "<html><body>" ++ body ++ str "</body></html>")

/-- Per-collection contribution to the composed document: the rendered
fragment wrapped in its section element, or nothing when the render is
empty.  Used to state the composition shape of np_render. -/
def sectionStr (c : Collection) : Except Unit Str :=
  match Collection.render_html c with
  | Except.error _ => Except.error ()
  | Except.ok p => Except.ok (if p.1 = [] then [] else sectionTemplate c.name c.id p.1)

/-- Sections of all collections in order. -/
def sectionAll : List Collection → Except Unit (List Str)
  | [] => Except.ok []
  | c :: rest =>
    match sectionStr c with
    | Except.error _ => Except.error ()
    | Except.ok s =>
      match sectionAll rest with
      | Except.error _ => Except.error ()
      | Except.ok t => Except.ok (s :: t)

/-- Split a string on a separator character, Python str.split(sep):
every separator occurrence splits, empty pieces are kept. -/
def splitOnChar (sep : Char) : Str → List Str
  | [] => [[]]
  | c :: t =>
    match splitOnChar sep t with
    | [] => [[]]
    | r :: rs => if c = sep then [] :: r :: rs else (c :: r) :: rs

/-- One feed section of the configuration file as consumed by main,
src/main.py:365-377: the section name (of the form feed.someid), the
display name, the comma-joined url value, and the optional last,
fetch-original, add-title and readability values. -/
structure FeedCfg : Type where
  sectionName : Str
  displayName : Str
  url : Str
  last : Option Str
  fetch_original : Option Str
  add_title : Option Str
  readability : Option Str
deriving DecidableEq

/-- Feed-loop body of main, src/main.py:365-377: derive the feed id from
the section name, split the urls, construct the collection, apply the
flag values (string comparison against "true" with default "true"),
store the truthy fetch-original string, and set the recency window from
the feed's own last value when truthy, else from the global one when
present.  An invalid window string exits the run (error case). -/
def buildCollection (globalLast : Option Str) (f : FeedCfg) : Except Unit Collection :=
  let fid := (splitOnChar '.' f.sectionName).getD 1 []
  let urls := splitOnChar ',' f.url
  let c0 := Collection.init fid urls f.displayName
  let c1 := { c0 with
    fetch_original := pyTruthyStr f.fetch_original
    add_title := (f.add_title.getD (str "true")) = str "true"
    do_readability := (f.readability.getD (str "true")) = str "true" }
  match pyTruthyStr f.last with
  | some s =>
    (match set_allowed_timedelta s with
     | Except.ok w => Except.ok { c1 with timedelta := some w }
     | Except.error _ => Except.error ())
  | none =>
    match globalLast with
    | some s =>
      (match set_allowed_timedelta s with
       | Except.ok w => Except.ok { c1 with timedelta := some w }
       | Except.error _ => Except.error ())
    | none => Except.ok c1

/-- Configuration phase of main: build every collection, aborting the run
on the first invalid window value (sys.exit at src/main.py:146). -/
def configureFeeds (globalLast : Option Str) : List FeedCfg → Except Unit (List Collection)
  | [] => Except.ok []
  | f :: fs =>
    match buildCollection globalLast f with
    | Except.error _ => Except.error ()
    | Except.ok c =>
      match configureFeeds globalLast fs with
      | Except.error _ => Except.error ()
      | Except.ok cs => Except.ok (c :: cs)

/-- Per-collection step of Newspaper.download_all, src/main.py:76-82:
ingest every source of the collection, then fetch article bodies when the
fetch_original flag is truthy.  The net parameter maps a source url to
its parsed entries, fetches maps an article url to its network outcome,
and extract is the readability collaborator. -/
def downloadAllStep (net : Str → List RawEntry) (fetches : Str → FetchOutcome)
    (extract : Str → Str) (now today : Int) (c : Collection) : Except Unit Collection :=
  match downloadFeed c (c.urls.map fun u => (now, today, net u)) with
  | Except.error _ => Except.error ()
  | Except.ok c' =>
    match c'.fetch_original with
    | some _ =>
      (match download_articles extract c'.do_readability fetches c'.articles with
       | Except.error _ => Except.error ()
       | Except.ok p => Except.ok { c' with articles := p.1 })
    | none => Except.ok c'

/-- Newspaper.download_all over the collection list. -/
def downloadAll (net : Str → List RawEntry) (fetches : Str → FetchOutcome)
    (extract : Str → Str) (now today : Int) : List Collection → Except Unit (List Collection)
  | [] => Except.ok []
  | c :: rest =>
    match downloadAllStep net fetches extract now today c with
    | Except.error _ => Except.error ()
    | Except.ok c' =>
      match downloadAll net fetches extract now today rest with
      | Except.error _ => Except.error ()
      | Except.ok rest' => Except.ok (c' :: rest')

/-- No occurrence of pat can start inside w, whatever follows w: at every
position of w, pat neither matches there outright nor could the remaining
tail of w be completed to pat by later text. -/
def spanFreeB (w pat : Str) : Bool :=
  (List.range w.length).all fun j =>
    !leadMatch pat (w.drop j) && !leadMatch (w.drop j) pat

/-- No nonempty proper tail of pat is an initial segment of pat itself
(pat cannot overlap itself), so an occurrence of pat cannot start inside
text that immediately precedes an occurrence of pat. -/
def noBorderB (pat : Str) : Bool :=
  (List.range pat.length).all fun k => decide (k = 0) || !leadMatch (pat.drop k) pat

/-- No nonempty proper tail of pat is an initial segment of suf, so an
occurrence of pat cannot straddle the boundary into suf. -/
def tailFreeB (pat suf : Str) : Bool :=
  (List.range pat.length).all fun k => decide (k = 0) || !leadMatch (pat.drop k) suf

/-- Descending-date ordering of an article list (non-increasing sort
keys). -/
def dateDescending (l : List Article) : Prop :=
  List.Pairwise (fun x y => dateKey y.date ≤ dateKey x.date) l

/-- Dedup invariant of a collection state: the dedup set holds exactly
the urls of the collected articles (most recent first) and those urls are
pairwise distinct. -/
def dedupInv (c : Collection) : Prop :=
  c.article_urls = (c.articles.map fun a => a.url).reverse
    ∧ (c.articles.map fun a => a.url).Nodup

/-- Recency window string that main applies to a feed, src/main.py:373-376:
the feed's own last value when truthy, else the global one. -/
def lastStringOf (globalLast : Option Str) (f : FeedCfg) : Option Str :=
  match pyTruthyStr f.last with
  | some s => some s
  | none => globalLast

/-- Pipeline of main, src/main.py:341-380, from the parsed configuration
to the composed intermediate document: build the collections
(configuration phase, no network), then drive ingestion and fetching
(network phase), then compose.  The export handoff to the external
converter is out of core scope. -/
def mainModel (globalLast : Option Str) (feeds : List FeedCfg)
    (net : Str → List RawEntry) (fetches : Str → FetchOutcome)
    (extract : Str → Str) (now today : Int) : Except Unit Str :=
  match configureFeeds globalLast feeds with
  | Except.error _ => Except.error ()
  | Except.ok colls =>
    match downloadAll net fetches extract now today colls with
    | Except.error _ => Except.error ()
    | Except.ok colls' => np_render colls'

/-! Substring and first-occurrence theory for the byline splice. -/

theorem leadMatch_iff : ∀ (pat s : Str), leadMatch pat s = true ↔ ∃ t, s = pat ++ t
  | [], s => by simp [leadMatch]
  | _ :: _, [] => by simp [leadMatch]
  | a :: pa, b :: sb => by
    simp only [leadMatch, Bool.and_eq_true, beq_iff_eq, List.cons_append, List.cons.injEq]
    rw [leadMatch_iff pa sb]
    constructor
    · rintro ⟨rfl, t, rfl⟩; exact ⟨t, rfl, rfl⟩
    · rintro ⟨t, rfl, rfl⟩; exact ⟨rfl, t, rfl⟩

theorem leadMatch_append_self (pat t : Str) : leadMatch pat (pat ++ t) = true :=
  (leadMatch_iff pat (pat ++ t)).mpr ⟨t, rfl⟩

theorem leadMatch_or_of_append (pat a b : Str) (h : leadMatch pat (a ++ b) = true) :
    leadMatch pat a = true ∨ leadMatch a pat = true := by
  obtain ⟨t, ht⟩ := (leadMatch_iff pat (a ++ b)).mp h
  rcases Nat.le_total pat.length a.length with hle | hle
  · left
    apply (leadMatch_iff pat a).mpr
    refine ⟨a.drop pat.length, ?_⟩
    have h1 : (a ++ b).take pat.length = a.take pat.length := by
      rw [List.take_append_eq_append_take, Nat.sub_eq_zero_of_le hle, List.take_zero,
        List.append_nil]
    have h2 : (pat ++ t).take pat.length = pat := List.take_left pat t
    have h3 : a.take pat.length = pat := by rw [← h1, ht, h2]
    conv_lhs => rw [← List.take_append_drop pat.length a]
    rw [h3]
  · right
    apply (leadMatch_iff a pat).mpr
    refine ⟨pat.drop a.length, ?_⟩
    have h1 : (a ++ b).take a.length = a := List.take_left a b
    have h2 : (pat ++ t).take a.length = pat.take a.length := by
      rw [List.take_append_eq_append_take, Nat.sub_eq_zero_of_le hle, List.take_zero,
        List.append_nil]
    have h3 : pat.take a.length = a := by rw [← h2, ← ht, h1]
    conv_lhs => rw [← List.take_append_drop a.length pat]
    rw [h3]

theorem containsSub_false_iff (pat : Str) (hne : pat ≠ []) :
    ∀ s : Str, containsSub pat s = false ↔ ∀ j, leadMatch pat (s.drop j) = false
  | [] => by
    cases pat with
    | nil => exact absurd rfl hne
    | cons a pa => simp [containsSub, leadMatch, List.drop_nil]
  | c :: t => by
    simp only [containsSub, Bool.or_eq_false_iff]
    rw [containsSub_false_iff pat hne t]
    constructor
    · rintro ⟨h0, hrest⟩ j
      cases j with
      | zero => simpa using h0
      | succ j => rw [List.drop_succ_cons]; exact hrest j
    · intro h
      refine ⟨by simpa using h 0, fun j => ?_⟩
      have := h (j + 1)
      rwa [List.drop_succ_cons] at this

theorem replaceFirst_not_contains (old new : Str) :
    ∀ s, containsSub old s = false → replaceFirstAux old new s = s
  | [], _ => rfl
  | c :: t, h => by
    simp only [containsSub, Bool.or_eq_false_iff] at h
    simp only [replaceFirstAux, h.1, Bool.false_eq_true, if_false]
    rw [replaceFirst_not_contains old new t h.2]

theorem replaceFirst_at (old new : Str) (hne : old ≠ []) :
    ∀ (i : Nat) (s : Str), leadMatch old (s.drop i) = true →
      (∀ j, j < i → leadMatch old (s.drop j) = false) →
      replaceFirstAux old new s = s.take i ++ new ++ s.drop (i + old.length)
  | 0, [], hocc, _ => by
    rw [List.drop_nil] at hocc
    obtain ⟨t, ht⟩ := (leadMatch_iff old []).mp hocc
    exact absurd (List.append_eq_nil.mp ht.symm).1 hne
  | 0, c :: t, hocc, _ => by
    rw [List.drop_zero] at hocc
    simp only [replaceFirstAux, hocc, if_true]
    simp
  | i + 1, [], hocc, _ => by
    rw [List.drop_nil] at hocc
    obtain ⟨t, ht⟩ := (leadMatch_iff old []).mp hocc
    exact absurd (List.append_eq_nil.mp ht.symm).1 hne
  | i + 1, c :: t, hocc, hfirst => by
    have h0 : leadMatch old (c :: t) = false := by simpa using hfirst 0 (Nat.succ_pos i)
    simp only [replaceFirstAux, h0, Bool.false_eq_true, if_false]
    have hocc' : leadMatch old (t.drop i) = true := by
      rwa [List.drop_succ_cons] at hocc
    have hfirst' : ∀ j, j < i → leadMatch old (t.drop j) = false := by
      intro j hj
      have := hfirst (j + 1) (Nat.succ_lt_succ hj)
      rwa [List.drop_succ_cons] at this
    rw [replaceFirst_at old new hne i t hocc' hfirst']
    simp [Nat.succ_add]

theorem spanFree_no_occ (w pat : Str) (h : spanFreeB w pat = true) :
    ∀ j, j < w.length → ∀ rest, leadMatch pat (w.drop j ++ rest) = false := by
  intro j hj rest
  have hj' := (List.all_eq_true.mp h) j (List.mem_range.mpr hj)
  simp only [Bool.and_eq_true, Bool.not_eq_true'] at hj'
  by_contra hcon
  rw [Bool.not_eq_false] at hcon
  rcases leadMatch_or_of_append pat (w.drop j) rest hcon with h1 | h2
  · simp [hj'.1] at h1
  · simp [hj'.2] at h2

theorem mid_no_occ (pat p : Str) (hne : pat ≠ []) (hnb : noBorderB pat = true)
    (hnc : containsSub pat p = false) :
    ∀ j, j < p.length → ∀ rest, leadMatch pat (p.drop j ++ (pat ++ rest)) = false := by
  intro j hj rest
  by_contra hcon
  rw [Bool.not_eq_false, ← List.append_assoc] at hcon
  have hkpos : 0 < (p.drop j).length := by
    rw [List.length_drop]; omega
  rcases leadMatch_or_of_append pat (p.drop j ++ pat) rest hcon with h1 | h2
  · obtain ⟨t, ht⟩ := (leadMatch_iff _ _).mp h1
    have hlen : (p.drop j).length + pat.length = pat.length + t.length := by
      have := congrArg List.length ht
      simpa [List.length_append] using this
    rcases Nat.lt_or_ge (p.drop j).length pat.length with hklt | hkge
    · have hdk : (p.drop j ++ pat).drop (p.drop j).length = pat := List.drop_left _ _
      have hdk2 : (pat ++ t).drop (p.drop j).length
          = pat.drop (p.drop j).length ++ t := by
        rw [List.drop_append_eq_append_drop, Nat.sub_eq_zero_of_le (Nat.le_of_lt hklt),
          List.drop_zero]
      have hpat : pat = pat.drop (p.drop j).length ++ t := by
        conv_lhs => rw [← hdk, ht]
        rw [hdk2]
      have hlm : leadMatch (pat.drop (p.drop j).length) pat = true :=
        (leadMatch_iff _ _).mpr ⟨t, hpat⟩
      have hb := (List.all_eq_true.mp hnb) (p.drop j).length (List.mem_range.mpr hklt)
      simp only [Bool.or_eq_true, decide_eq_true_eq, Bool.not_eq_true'] at hb
      rcases hb with hb | hb
      · omega
      · rw [hlm] at hb
        exact absurd hb (by simp)
    · have h1' : (p.drop j ++ pat).take pat.length = (p.drop j).take pat.length := by
        rw [List.take_append_eq_append_take, Nat.sub_eq_zero_of_le hkge, List.take_zero,
          List.append_nil]
      have h2' : (pat ++ t).take pat.length = pat := List.take_left pat t
      have h3' : (p.drop j).take pat.length = pat := by rw [← h1', ht, h2']
      have hlm : leadMatch pat (p.drop j) = true := by
        apply (leadMatch_iff _ _).mpr
        refine ⟨(p.drop j).drop pat.length, ?_⟩
        conv_lhs => rw [← List.take_append_drop pat.length (p.drop j)]
        rw [h3']
      have hall := (containsSub_false_iff pat hne p).mp hnc j
      simp [hlm] at hall
  · obtain ⟨t, ht⟩ := (leadMatch_iff _ _).mp h2
    have := congrArg List.length ht
    simp only [List.length_append] at this
    omega

theorem end_no_occ (pat b suf : Str) (hne : pat ≠ [])
    (htf : tailFreeB pat suf = true) (hb : containsSub pat b = false)
    (hs : containsSub pat suf = false) :
    ∀ j, leadMatch pat ((b ++ suf).drop j) = false := by
  intro j
  rcases Nat.lt_or_ge j b.length with hj | hj
  · by_contra hcon
    rw [Bool.not_eq_false, List.drop_append_eq_append_drop,
      Nat.sub_eq_zero_of_le (Nat.le_of_lt hj), List.drop_zero] at hcon
    rcases leadMatch_or_of_append pat (b.drop j) suf hcon with h1 | h2
    · have hall := (containsSub_false_iff pat hne b).mp hb j
      simp [h1] at hall
    · have hkpos : 0 < (b.drop j).length := by
        rw [List.length_drop]; omega
      obtain ⟨t, ht⟩ := (leadMatch_iff _ _).mp h2
      rcases Nat.lt_or_ge (b.drop j).length pat.length with hklt | hkge
      · have htk : pat.drop (b.drop j).length = t := by
          rw [ht]; exact List.drop_left _ _
        obtain ⟨t', ht'⟩ := (leadMatch_iff _ _).mp hcon
        rw [ht, List.append_assoc] at ht'
        have hsuf : suf = t ++ t' := by
          have := List.append_cancel_left ht'
          exact this
        have hlm : leadMatch (pat.drop (b.drop j).length) suf = true := by
          apply (leadMatch_iff _ _).mpr
          exact ⟨t', by rw [hsuf, htk]⟩
        have hk := (List.all_eq_true.mp htf) (b.drop j).length (List.mem_range.mpr hklt)
        simp only [Bool.or_eq_true, decide_eq_true_eq, Bool.not_eq_true'] at hk
        rcases hk with hk | hk
        · omega
        · rw [hlm] at hk
          exact absurd hk (by simp)
      · have hlen := congrArg List.length ht
        simp only [List.length_append] at hlen
        have htnil : t = [] := by
          have : t.length = 0 := by omega
          exact List.length_eq_zero.mp this
        rw [htnil, List.append_nil] at ht
        have hlm : leadMatch pat (b.drop j) = true :=
          (leadMatch_iff _ _).mpr ⟨[], by rw [ht, List.append_nil]⟩
        have hall := (containsSub_false_iff pat hne b).mp hb j
        simp [hlm] at hall
  · rw [List.drop_append_eq_append_drop, List.drop_eq_nil_of_le hj, List.nil_append]
    exact (containsSub_false_iff pat hne suf).mp hs (j - b.length)

theorem wrap_not_contains (pat pre b suf : Str) (hne : pat ≠ [])
    (hsf : spanFreeB pre pat = true) (htf : tailFreeB pat suf = true)
    (hb : containsSub pat b = false) (hs : containsSub pat suf = false) :
    containsSub pat (pre ++ b ++ suf) = false := by
  rw [containsSub_false_iff pat hne]
  intro j
  rw [List.append_assoc]
  rcases Nat.lt_or_ge j pre.length with hj | hj
  · rw [List.drop_append_eq_append_drop, Nat.sub_eq_zero_of_le (Nat.le_of_lt hj),
      List.drop_zero]
    exact spanFree_no_occ pre pat hsf j hj (b ++ suf)
  · rw [List.drop_append_eq_append_drop, List.drop_eq_nil_of_le hj, List.nil_append]
    exact end_no_occ pat b suf hne htf hb hs (j - pre.length)

theorem splice_eq (pat new pre p q suf : Str) (hne : pat ≠ [])
    (hnb : noBorderB pat = true) (hsf : spanFreeB pre pat = true)
    (hp : containsSub pat p = false) :
    replaceFirstAux pat new (pre ++ (p ++ (pat ++ q)) ++ suf)
      = pre ++ (p ++ (new ++ (q ++ suf))) := by
  have hshape : pre ++ (p ++ (pat ++ q)) ++ suf
      = (pre ++ p) ++ (pat ++ (q ++ suf)) := by
    simp [List.append_assoc]
  rw [hshape]
  have hi : (pre ++ p).length = pre.length + p.length := List.length_append pre p
  have hocc : leadMatch pat (((pre ++ p) ++ (pat ++ (q ++ suf))).drop (pre ++ p).length)
      = true := by
    rw [List.drop_left]
    exact leadMatch_append_self pat (q ++ suf)
  have hfirst : ∀ j, j < (pre ++ p).length →
      leadMatch pat (((pre ++ p) ++ (pat ++ (q ++ suf))).drop j) = false := by
    intro j hj
    rw [hi] at hj
    have hsh2 : (pre ++ p) ++ (pat ++ (q ++ suf))
        = pre ++ (p ++ (pat ++ (q ++ suf))) := by
      simp [List.append_assoc]
    rw [hsh2]
    rcases Nat.lt_or_ge j pre.length with hjp | hjp
    · rw [List.drop_append_eq_append_drop, Nat.sub_eq_zero_of_le (Nat.le_of_lt hjp),
        List.drop_zero]
      exact spanFree_no_occ pre pat hsf j hjp _
    · have hz : j - pre.length - p.length = 0 := by omega
      rw [List.drop_append_eq_append_drop, List.drop_eq_nil_of_le hjp, List.nil_append,
        List.drop_append_eq_append_drop, hz, List.drop_zero]
      exact mid_no_occ pat p hne hnb hp (j - pre.length) (by omega) (q ++ suf)
  rw [replaceFirst_at pat new hne (pre ++ p).length _ hocc hfirst]
  have htake : ((pre ++ p) ++ (pat ++ (q ++ suf))).take (pre ++ p).length = pre ++ p :=
    List.take_left _ _
  have hdrop : ((pre ++ p) ++ (pat ++ (q ++ suf))).drop ((pre ++ p).length + pat.length)
      = q ++ suf := by
    have hsh3 : (pre ++ p) ++ (pat ++ (q ++ suf)) = ((pre ++ p) ++ pat) ++ (q ++ suf) := by
      simp [List.append_assoc]
    have hlen2 : (pre ++ p).length + pat.length = ((pre ++ p) ++ pat).length := by
      simp [List.length_append, Nat.add_assoc]
    rw [hsh3, hlen2, List.drop_left]
  rw [htake, hdrop]
  simp [List.append_assoc]

theorem renderArticle_false_eq (a : Article) (d : Str) (hd : getdatestr a = Except.ok d) :
    renderArticle false a = Except.ok (replaceFirstAux h1close (h1close ++ emSubtitle a d)
      (articleDivPre ++ a.full_text ++ articleDivSuf)) := by
  unfold renderArticle
  rw [hd]
  rfl

/-- Claim C6: with the include-title-block flag disabled, the byline/date
line is spliced into the rendered article immediately after the first
closing heading marker of the body (later heading markers, for instance
inside q, are untouched), and a body with no closing heading marker is
emitted unchanged, dropping the byline/date line. -/
theorem C6_title_splice (a : Article) (d : Str) (hd : getdatestr a = Except.ok d) :
    (∀ p q : Str, a.full_text = p ++ (h1close ++ q) → containsSub h1close p = false →
      renderArticle false a = Except.ok
        (articleDivPre ++ p ++ h1close ++ emSubtitle a d ++ q ++ articleDivSuf))
    ∧ (containsSub h1close a.full_text = false →
      renderArticle false a = Except.ok (articleDivPre ++ a.full_text ++ articleDivSuf)) := by
  have key := renderArticle_false_eq a d hd
  constructor
  · intro p q hft hp
    rw [key, hft]
    rw [splice_eq h1close (h1close ++ emSubtitle a d) articleDivPre p q articleDivSuf
      (by decide) (by decide) (by decide) hp]
    simp [List.append_assoc]
  · intro hnc
    rw [key]
    rw [replaceFirst_not_contains _ _ _ (wrap_not_contains h1close articleDivPre a.full_text
      articleDivSuf (by decide) (by decide) (by decide) hnc (by decide))]

/-! Stable descending sort: ordering and stability. -/

theorem mem_insertDesc (a x : Article) : ∀ l : List Article,
    x ∈ insertDesc a l ↔ x = a ∨ x ∈ l
  | [] => by simp [insertDesc]
  | b :: l => by
    unfold insertDesc
    by_cases hc : dateKey b.date ≤ dateKey a.date
    · rw [if_pos hc]
      simp [List.mem_cons]
    · rw [if_neg hc]
      rw [List.mem_cons, List.mem_cons, mem_insertDesc a x l]
      tauto

theorem pairwise_insertDesc (a : Article) : ∀ l : List Article,
    dateDescending l → dateDescending (insertDesc a l)
  | [], _ => by simp [insertDesc, dateDescending]
  | b :: l, h => by
    unfold dateDescending at h ⊢
    unfold insertDesc
    rw [List.pairwise_cons] at h
    by_cases hc : dateKey b.date ≤ dateKey a.date
    · rw [if_pos hc, List.pairwise_cons]
      refine ⟨?_, List.pairwise_cons.mpr h⟩
      intro y hy
      rcases List.mem_cons.mp hy with rfl | hy
      · exact hc
      · exact le_trans (h.1 y hy) hc
    · rw [if_neg hc, List.pairwise_cons]
      constructor
      · intro y hy
        rcases (mem_insertDesc a y l).mp hy with rfl | hy
        · exact le_of_lt (lt_of_not_le hc)
        · exact h.1 y hy
      · exact pairwise_insertDesc a l h.2

theorem sortDesc_sorted : ∀ l : List Article, dateDescending (sortDesc l)
  | [] => by simp [sortDesc, dateDescending]
  | a :: l => pairwise_insertDesc a (sortDesc l) (sortDesc_sorted l)

theorem filter_insertDesc (a : Article) (d : PyDate) : ∀ l : List Article,
    (insertDesc a l).filter (fun x => x.date == d)
      = if a.date == d then a :: l.filter (fun x => x.date == d)
        else l.filter (fun x => x.date == d)
  | [] => by
    unfold insertDesc
    by_cases ha : (a.date == d) = true <;> simp [List.filter, ha]
  | b :: l => by
    unfold insertDesc
    by_cases hc : dateKey b.date ≤ dateKey a.date
    · rw [if_pos hc]
      by_cases ha : (a.date == d) = true <;> by_cases hb : (b.date == d) = true <;>
        simp [List.filter_cons, ha, hb]
    · rw [if_neg hc]
      simp only [List.filter_cons]
      rw [filter_insertDesc a d l]
      by_cases ha : (a.date == d) = true
      · have hbd : (b.date == d) = false := by
          by_contra hbc
          rw [Bool.not_eq_false] at hbc
          have h1 : a.date = d := beq_iff_eq.mp ha
          have h2 : b.date = d := beq_iff_eq.mp hbc
          exact hc (by rw [h1, h2])
        simp [ha, hbd]
      · by_cases hb : (b.date == d) = true <;> simp [ha, hb]

theorem filter_sortDesc (d : PyDate) : ∀ l : List Article,
    (sortDesc l).filter (fun x => x.date == d) = l.filter (fun x => x.date == d)
  | [] => rfl
  | a :: l => by
    unfold sortDesc
    rw [filter_insertDesc a d (sortDesc l), filter_sortDesc d l]
    by_cases ha : (a.date == d) = true <;> simp [List.filter_cons, ha]

/-- Claim C3: rendering sorts the article list freshly immediately before
producing output; the sorted sequence used for output is in
non-increasing publishedAt order, the sort is stable (articles with the
same publishedAt keep their relative ingestion order, stated as filter
invariance), and the rendered markup is produced from exactly that sorted
sequence. -/
theorem C3_fresh_stable_sort (c : Collection) (s : Str) (c' : Collection)
    (h : Collection.render_html c = Except.ok (s, c')) :
    c'.articles = sortDesc c.articles
    ∧ dateDescending c'.articles
    ∧ (∀ d : PyDate, c'.articles.filter (fun x => x.date == d)
        = c.articles.filter (fun x => x.date == d))
    ∧ renderList c.add_title c'.articles = Except.ok s := by
  unfold Collection.render_html at h
  split at h
  · exact absurd h (by simp)
  next sorted heq =>
    have hsorted : sorted = sortDesc c.articles := by
      unfold pySortByDate at heq
      split at heq
      · exact absurd heq (by simp)
      · simp only [Except.ok.injEq] at heq
        exact heq.symm
    split at h
    · exact absurd h (by simp)
    next html heq2 =>
      simp only [Except.ok.injEq, Prod.mk.injEq] at h
      obtain ⟨h1, h2⟩ := h
      have hart : c'.articles = sortDesc c.articles := by
        rw [← h2, hsorted]
      refine ⟨hart, ?_, ?_, ?_⟩
      · rw [hart]; exact sortDesc_sorted c.articles
      · intro d; rw [hart]; exact filter_sortDesc d c.articles
      · rw [hart, ← hsorted, heq2, h1]

/-! Dedup invariant through ingestion. -/

theorem dedupInv_init (i n : Str) (us : List Str) : dedupInv (Collection.init i us n) := by
  simp [dedupInv, Collection.init]

theorem dedupInv_processArticle (now : Int) (c : Collection) (a : Article)
    (c' : Collection) (hI : dedupInv c)
    (h : processArticle now c a = Except.ok c') : dedupInv c' := by
  unfold processArticle at h
  split at h
  · exact absurd h (by simp)
  · simp only [Except.ok.injEq] at h
    rwa [← h]
  · split at h
    · simp only [Except.ok.injEq] at h
      rwa [← h]
    next hmem =>
      simp only [Except.ok.injEq] at h
      rw [← h]
      obtain ⟨hurls, hnodup⟩ := hI
      constructor
      · simp [pushArticle, hurls, List.map_append, List.reverse_append]
      · simp only [pushArticle, List.map_append, List.map_cons, List.map_nil]
        rw [List.nodup_append]
        refine ⟨hnodup, List.nodup_singleton _, ?_⟩
        intro x hx hx2
        simp only [List.mem_singleton] at hx2
        rw [hx2] at hx
        rw [hurls] at hmem
        exact hmem (List.mem_reverse.mpr hx)

theorem dedupInv_processEntry (now today : Int) (c : Collection) (e : RawEntry)
    (c' : Collection) (hI : dedupInv c)
    (h : processEntry now today c e = Except.ok c') : dedupInv c' := by
  unfold processEntry at h
  split at h
  next link t =>
    exact dedupInv_processArticle now c _ c' hI h
  · simp only [Except.ok.injEq] at h
    rwa [← h]

theorem dedupInv_downloadUrl (now today : Int) :
    ∀ (es : List RawEntry) (c c' : Collection), dedupInv c →
      downloadUrl now today c es = Except.ok c' → dedupInv c'
  | [], c, c', hI, h => by
    unfold downloadUrl at h
    simp only [Except.ok.injEq] at h
    rwa [← h]
  | e :: es, c, c', hI, h => by
    unfold downloadUrl at h
    split at h
    next c1 hp =>
      exact dedupInv_downloadUrl now today es c1 c' (dedupInv_processEntry now today c e c1 hI hp) h
    · exact absurd h (by simp)

theorem dedupInv_downloadFeed :
    ∀ (srcs : List (Int × Int × List RawEntry)) (c c' : Collection), dedupInv c →
      downloadFeed c srcs = Except.ok c' → dedupInv c'
  | [], c, c', hI, h => by
    unfold downloadFeed at h
    simp only [Except.ok.injEq] at h
    rwa [← h]
  | (now, today, es) :: rest, c, c', hI, h => by
    unfold downloadFeed at h
    split at h
    next c1 hp =>
      exact dedupInv_downloadFeed rest c1 c' (dedupInv_downloadUrl now today es c c1 hI hp) h
    · exact absurd h (by simp)

theorem countP_le_one_of_nodup_map (u : Str) :
    ∀ l : List Article, ((l.map fun a => a.url).Nodup) →
      l.countP (fun x => x.url == u) ≤ 1
  | [], _ => by simp
  | a :: t, h => by
    simp only [List.map_cons, List.nodup_cons] at h
    rw [List.countP_cons]
    by_cases ha : (a.url == u) = true
    · have hzero : t.countP (fun x => x.url == u) = 0 := by
        rw [List.countP_eq_zero]
        intro x hx hbe
        apply h.1
        rw [beq_iff_eq.mp ha, ← beq_iff_eq.mp hbe]
        exact List.mem_map.mpr ⟨x, hx, rfl⟩
      simp [ha, hzero]
    · have := countP_le_one_of_nodup_map u t h.2
      simp only [Bool.not_eq_true] at ha
      simp [ha]
      omega

/-- Claim C1: ingestion keeps the url unique inside one Collection, also
across the configured source urls: after a successful download_feed run
from a fresh collection, at most one article carries any given url, the
dedup set holds exactly the urls of the surviving articles, a recorded
url is carried by exactly one article, and an article whose url is
already recorded leaves the collection completely unchanged (the later
entry is dropped whole, not merged into the survivor). -/
theorem C1_dedup_unique :
    (∀ (i n : Str) (us : List Str) (sources : List (Int × Int × List RawEntry)) (c' : Collection),
       downloadFeed (Collection.init i us n) sources = Except.ok c' →
       (∀ u : Str, c'.articles.countP (fun x => x.url == u) ≤ 1)
       ∧ (∀ u : Str, u ∈ c'.article_urls ↔ ∃ x ∈ c'.articles, x.url = u)
       ∧ (∀ u : Str, u ∈ c'.article_urls → c'.articles.countP (fun x => x.url == u) = 1))
    ∧ (∀ (now : Int) (c : Collection) (a : Article) (keep : Bool),
       a.url ∈ c.article_urls → recencyKeep c.timedelta now a.date = Except.ok keep →
       processArticle now c a = Except.ok c) := by
  constructor
  · intro i n us sources c' h
    have hinv : dedupInv c' :=
      dedupInv_downloadFeed sources (Collection.init i us n) c' (dedupInv_init i n us) h
    obtain ⟨hurls, hnodup⟩ := hinv
    have hiff : ∀ u : Str, u ∈ c'.article_urls ↔ ∃ x ∈ c'.articles, x.url = u := by
      intro u
      rw [hurls, List.mem_reverse, List.mem_map]
    refine ⟨fun u => countP_le_one_of_nodup_map u c'.articles hnodup, hiff, ?_⟩
    intro u hu
    obtain ⟨x, hx, hxe⟩ := (hiff u).mp hu
    have hpos : 0 < c'.articles.countP (fun x => x.url == u) :=
      List.countP_pos_iff.mpr ⟨x, hx, beq_iff_eq.mpr hxe⟩
    have hle := countP_le_one_of_nodup_map u c'.articles hnodup
    omega
  · intro now c a keep hmem hkeep
    unfold processArticle
    rw [hkeep]
    cases keep
    · rfl
    · simp [hmem]

/-- Claim C2 (amended): with a configured nonzero recency window w an
entry carrying a publish time t is excluded exactly when now - t > w
(kept otherwise, and when kept and new it is appended); with no window
every entry is admitted regardless of age.  A window configured as zero
is Python-falsy and disables the filter instead (see the separate
counterexample theorem). -/
theorem C2_recency_window :
    (∀ (now t w : Int), w ≠ 0 →
       recencyKeep (some w) now (PyDate.dt t) = Except.ok (!(decide (now - t > w))))
    ∧ (∀ (now : Int) (d : PyDate), recencyKeep none now d = Except.ok true)
    ∧ (∀ (now today : Int) (c : Collection) (e : RawEntry) (u s : Str) (t w : Int),
       c.timedelta = some w → w ≠ 0 → e.link = some u → e.title = some s →
       e.published_parsed = some t → u ∉ c.article_urls →
       processEntry now today c e =
         Except.ok (if now - t > w then c
           else pushArticle c (mkArticle u (some s) e.author e.description
             (some (PyDate.dt t)) today))) := by
  have hrk : ∀ (now t w : Int), w ≠ 0 →
      recencyKeep (some w) now (PyDate.dt t) = Except.ok (!(decide (now - t > w))) := by
    intro now t w hw
    have hred : recencyKeep (some w) now (PyDate.dt t)
        = if w = 0 then Except.ok true else Except.ok (!(decide (now - t > w))) := rfl
    rw [hred, if_neg hw]
  refine ⟨hrk, ?_, ?_⟩
  · intro now d; rfl
  · intro now today c e u s t w htd hw hl ht hp hnew
    have hstep : processEntry now today c e
        = processArticle now c (mkArticle u (some s) e.author e.description
            (some (PyDate.dt t)) today) := by
      unfold processEntry
      rw [hl, ht, hp]
      rfl
    rw [hstep]
    have h1 : processArticle now c (mkArticle u (some s) e.author e.description
        (some (PyDate.dt t)) today)
        = match recencyKeep c.timedelta now (PyDate.dt t) with
          | Except.error _ => Except.error ()
          | Except.ok false => Except.ok c
          | Except.ok true =>
            if u ∈ c.article_urls then Except.ok c
            else Except.ok (pushArticle c (mkArticle u (some s) e.author e.description
              (some (PyDate.dt t)) today)) := rfl
    rw [h1, htd, hrk now t w hw]
    by_cases hold : now - t > w
    · simp only [hold, decide_True, Bool.not_true]
      simp
    · simp only [hold, decide_False, Bool.not_false]
      rw [if_neg hnew]
      simp

/-- Claim C2 counterexample: the string "0" configures a recency window
of zero days, and with that window an article a million seconds older
than now (so now - publishedAt > 0 = w) is still admitted, against the
claim that an entry is excluded exactly when now - publishedAt exceeds
the configured window. -/
theorem C2_zero_window_cex :
    set_allowed_timedelta (str "0") = Except.ok 0
    ∧ recencyKeep (some 0) 1000000 (PyDate.dt 0) = Except.ok true
    ∧ ((1000000 : Int) - 0 > 0)
    ∧ (processArticle 1000000
        { Collection.init (str "i") [] (str "n") with timedelta := some 0 }
        { url := str "u", title := str "t", author := str "Unknown",
          full_text := [], date := PyDate.dt 0 }).map
        (fun c => c.articles.length) = Except.ok 1 := by
  refine ⟨by decide, by decide, by decide, by decide⟩

/-- Claim C10: whatever outcome one get_full_text call has, whenever it
returns at all, the article's url, title, author and publishedAt are
unchanged and only the body may differ; on the two handled failure
outcomes (decoding failure, http failure) the article, body included, is
returned exactly as it was, together with a log message. -/
theorem C10_get_full_text_frame (extract : Str → Str) (rd : Bool) (a : Article)
    (o : FetchOutcome) :
    (∀ p : Article × List Str, get_full_text extract rd a o = Except.ok p →
       p.1.url = a.url ∧ p.1.title = a.title ∧ p.1.author = a.author ∧ p.1.date = a.date)
    ∧ ((o = FetchOutcome.decodeError ∨ o = FetchOutcome.httpError) →
       get_full_text extract rd a o = Except.ok (a, fetchLog a o)) := by
  constructor
  · intro p hp
    cases o <;> simp [get_full_text] at hp <;> rw [← hp] <;> simp
  · rintro (rfl | rfl) <;> rfl

/-- Claim C4 (amended): for the two handled per-article failure outcomes
(decoding failure, http-status failure) the article keeps its previous
summary body and a log message is emitted, and a batch of fetches in
which every outcome is handled processes every article independently (the
result is the elementwise fetch result, so one article's handled failure
never prevents a sibling's fetch).  A transport-level failure outside the
two handled exception classes, by contrast, aborts the batch (see the
counterexample theorem). -/
theorem C4_fetch_isolation :
    (∀ (extract : Str → Str) (rd : Bool) (a : Article) (o : FetchOutcome),
       (o = FetchOutcome.decodeError ∨ o = FetchOutcome.httpError) →
       fetchOk extract rd a o = a ∧ fetchLog a o ≠ [])
    ∧ (∀ (extract : Str → Str) (rd : Bool) (fetches : Str → FetchOutcome)
         (arts : List Article),
       (∀ a ∈ arts, fetches a.url ≠ FetchOutcome.otherError) →
       download_articles extract rd fetches arts =
         Except.ok (arts.map (fun a => fetchOk extract rd a (fetches a.url)),
                    (arts.map (fun a => fetchLog a (fetches a.url))).flatten)) := by
  constructor
  · intro extract rd a o ho
    rcases ho with rfl | rfl <;> exact ⟨rfl, by simp [fetchLog]⟩
  · intro extract rd fetches arts
    induction arts with
    | nil => intro _; rfl
    | cons a rest ih =>
      intro hall
      have ha : fetches a.url ≠ FetchOutcome.otherError := hall a (List.mem_cons_self a rest)
      have hrest := ih fun x hx => hall x (List.mem_cons_of_mem a hx)
      unfold download_articles
      rw [hrest]
      cases ho : fetches a.url with
      | success html => simp [get_full_text, fetchOk, fetchLog, ho]
      | decodeError => simp [get_full_text, fetchOk, fetchLog, ho]
      | httpError => simp [get_full_text, fetchOk, fetchLog, ho]
      | otherError => exact absurd ho ha

/-- Claim C4 counterexample: a transport-level fetch failure (an
exception other than the two handled classes, such as a urllib URLError
for an unreachable host) on the first article aborts the whole batch:
the run dies and the sibling article is never fetched, against the claim
that no single article's transport/HTTP fetch failure aborts the run. -/
theorem C4_transport_aborts :
    download_articles (fun s => s) true
      (fun u => if u = str "a" then FetchOutcome.otherError
                else FetchOutcome.success (str "ok"))
      [{ url := str "a", title := str "ta", author := str "Unknown",
         full_text := str "sum-a", date := PyDate.dt 0 },
       { url := str "b", title := str "tb", author := str "Unknown",
         full_text := str "sum-b", date := PyDate.dt 0 }] = Except.error () := by
  decide

/-- Claim C8 (amended): an entry whose source omits a publish time gets
the current calendar date (a date-only value) as its publishedAt, not a
full ingestion-time timestamp, and that fallback does not behave like a
source-supplied timestamp: date rendering raises on it (date has no hour
attribute) and with a nonzero recency window the age comparison raises
instead of filtering; only with no (or a zero) window is it admitted,
because the comparison is then never evaluated. -/
theorem C8_date_fallback :
    (∀ (url : Str) (kwTitle kwAuthor kwFull : Option Str) (today : Int),
       (mkArticle url kwTitle kwAuthor kwFull none today).date = PyDate.dateOnly today)
    ∧ (∀ (a : Article) (d0 : Int), a.date = PyDate.dateOnly d0 →
       getdatestr a = Except.error ())
    ∧ (∀ (w now d0 : Int), w ≠ 0 →
       recencyKeep (some w) now (PyDate.dateOnly d0) = Except.error ())
    ∧ (∀ (now d0 : Int), recencyKeep none now (PyDate.dateOnly d0) = Except.ok true) := by
  refine ⟨?_, ?_, ?_, ?_⟩
  · intro url kwTitle kwAuthor kwFull today; rfl
  · intro a d0 hd
    unfold getdatestr
    rw [hd]
  · intro w now d0 hw
    have hred : recencyKeep (some w) now (PyDate.dateOnly d0)
        = if w = 0 then Except.ok true else Except.error () := rfl
    rw [hred, if_neg hw]
  · intro now d0; rfl

/-- Claim C8 counterexample: ingesting an entry with no publish time at
now = 1000 (with today = 37) yields an article dated with the date-only
fallback, which is not the ingestion-time timestamp value, and on which
date rendering and the nonzero-window recency comparison both raise —
against the claim that the default is a full ingestion-time timestamp
that participates in filtering and rendering like any other. -/
theorem C8_date_fallback_cex :
    ((processEntry 1000 37 (Collection.init (str "i") [] (str "n"))
        { link := some (str "u"), title := some (str "t"), author := none,
          description := none, published_parsed := none }).map
        (fun c => c.articles.map fun a => a.date) = Except.ok [PyDate.dateOnly 37])
    ∧ PyDate.dateOnly 37 ≠ PyDate.dt 1000
    ∧ getdatestr { url := str "u", title := str "t", author := str "Unknown",
                   full_text := [], date := PyDate.dateOnly 37 } = Except.error ()
    ∧ recencyKeep (some 86400) 1000 (PyDate.dateOnly 37) = Except.error () := by
  refine ⟨by decide, by decide, by decide, by decide⟩

/-- Claim C9 (amended): an empty-string author supplied by the source is
not distinguished from an absent author: the truthiness test in
Article.__init__ maps both to the Unknown sentinel, which suppresses the
authorship clause of the byline; only a nonempty author string is kept
and rendered in the byline. -/
theorem C9_author_sentinel :
    (∀ (url : Str) (kwTitle kwFull : Option Str) (kwDate : Option PyDate) (today : Int),
       (mkArticle url kwTitle none kwFull kwDate today).author = str "Unknown"
       ∧ (mkArticle url kwTitle (some []) kwFull kwDate today).author = str "Unknown")
    ∧ (∀ (url au : Str) (kwTitle kwFull : Option Str) (kwDate : Option PyDate)
         (today : Int), au ≠ [] →
       (mkArticle url kwTitle (some au) kwFull kwDate today).author = au)
    ∧ (∀ (a : Article) (ds : Str), a.author = str "Unknown" →
       emSubtitle a ds = str "<em>" ++ ds ++ str "</em>")
    ∧ (∀ (a : Article) (ds : Str), a.author ≠ str "Unknown" →
       emSubtitle a ds = str "<em>" ++ a.author ++ str ", " ++ ds ++ str "</em>") := by
  refine ⟨?_, ?_, ?_, ?_⟩
  · intro url kwTitle kwFull kwDate today
    exact ⟨rfl, rfl⟩
  · intro url au kwTitle kwFull kwDate today hau
    simp [mkArticle, pyTruthyStr, hau]
  · intro a ds ha
    unfold emSubtitle
    rw [if_neg (by simp [ha])]
  · intro a ds ha
    unfold emSubtitle
    rw [if_pos ha]

/-- Claim C9 counterexample: an entry that supplies the empty string as
its author produces an article whose author is the Unknown sentinel, not
the empty string, so the empty-string author is not kept distinct from an
absent author as claimed. -/
theorem C9_empty_author_cex :
    (mkArticle (str "u") (some (str "t")) (some []) none none 0).author = str "Unknown"
    ∧ (mkArticle (str "u") (some (str "t")) (some []) none none 0).author ≠ []
    ∧ ((processEntry 0 0 (Collection.init (str "i") [] (str "n"))
        { link := some (str "u"), title := some (str "t"), author := some [],
          description := none, published_parsed := some 0 }).map
        (fun c => c.articles.map fun a => a.author) = Except.ok [str "Unknown"]) := by
  refine ⟨by decide, by decide, by decide⟩

/-! Configuration-phase abort. -/

theorem buildCollection_error_of_bad (gl : Option Str) (f : FeedCfg) (s : Str)
    (hs : lastStringOf gl f = some s)
    (hbad : set_allowed_timedelta s = Except.error ()) :
    buildCollection gl f = Except.error () := by
  unfold lastStringOf at hs
  unfold buildCollection
  cases hf : pyTruthyStr f.last with
  | some s2 =>
    rw [hf] at hs
    injection hs with hs2
    simp only [hf, hs2, hbad]
  | none =>
    rw [hf] at hs
    have hs2 : gl = some s := hs
    simp only [hf, hs2, hbad]

theorem configureFeeds_error (gl : Option Str) :
    ∀ (feeds : List FeedCfg) (f : FeedCfg), f ∈ feeds →
      buildCollection gl f = Except.error () →
      configureFeeds gl feeds = Except.error ()
  | [], f, hmem, _ => absurd hmem (List.not_mem_nil f)
  | g :: fs, f, hmem, hbad => by
    unfold configureFeeds
    rcases List.mem_cons.mp hmem with rfl | hmem2
    · rw [hbad]
    · cases hg : buildCollection gl g with
      | error u => rfl
      | ok c => rw [configureFeeds_error gl fs f hmem2 hbad]

/-- Claim C7: the named presets day, week and month fix the window to 1,
7 and 30 days; any other string that int() cannot parse as a day count is
a fatal configuration error; and when any feed's effective window string
is such a string the whole run aborts during the configuration phase —
the outcome is the error whatever the network would have answered, so the
abort happens before any network activity and is not limited to the
affected collection. -/
theorem C7_config_abort :
    (set_allowed_timedelta (str "day") = Except.ok 86400
      ∧ set_allowed_timedelta (str "week") = Except.ok (7 * 86400)
      ∧ set_allowed_timedelta (str "month") = Except.ok (30 * 86400))
    ∧ (∀ s : Str, s ≠ str "day" → s ≠ str "week" → s ≠ str "month" →
        pyToInt? s = none → set_allowed_timedelta s = Except.error ())
    ∧ (∀ (gl : Option Str) (feeds : List FeedCfg) (f : FeedCfg) (s : Str),
        f ∈ feeds → lastStringOf gl f = some s →
        set_allowed_timedelta s = Except.error () →
        ∀ (net : Str → List RawEntry) (fetches : Str → FetchOutcome)
          (extract : Str → Str) (now today : Int),
          mainModel gl feeds net fetches extract now today = Except.error ()) := by
  refine ⟨⟨by decide, by decide, by decide⟩, ?_, ?_⟩
  · intro s h1 h2 h3 h4
    unfold set_allowed_timedelta
    rw [if_neg h1, if_neg h2, if_neg h3, h4]
  · intro gl feeds f s hmem hls hbad net fetches extract now today
    unfold mainModel
    rw [configureFeeds_error gl feeds f hmem (buildCollection_error_of_bad gl f s hls hbad)]

/-! Composition of the digest document. -/

theorem renderHtml_empty (c : Collection) (h : c.articles = []) :
    Collection.render_html c = Except.ok ([], c) := by
  obtain ⟨cid, cname, curls, carts, ctd, cfo, cdr, cat, caus⟩ := c
  simp only at h
  subst h
  rfl

theorem npLoop_cons (a : Collection) (l : List Collection) :
    npLoop (a :: l) = match Collection.render_html a with
      | Except.error _ => Except.error ()
      | Except.ok p => match npLoop l with
        | Except.error _ => Except.error ()
        | Except.ok t =>
          Except.ok ((if p.1 = [] then [] else sectionTemplate a.name a.id p.1) ++ t) := rfl

theorem npLoop_skip (c : Collection) (h : c.articles = []) :
    ∀ l₂ : List Collection, npLoop (c :: l₂) = npLoop l₂ := by
  intro l₂
  rw [npLoop_cons, renderHtml_empty c h]
  cases hn : npLoop l₂ with
  | error e => rfl
  | ok t => rfl

theorem npLoop_append_skip (c : Collection) (h : c.articles = []) :
    ∀ (l₁ l₂ : List Collection), npLoop (l₁ ++ c :: l₂) = npLoop (l₁ ++ l₂)
  | [], l₂ => by simpa using npLoop_skip c h l₂
  | a :: l₁, l₂ => by
    simp only [List.cons_append]
    rw [npLoop_cons, npLoop_cons, npLoop_append_skip c h l₁ l₂]

theorem npLoop_sections : ∀ colls : List Collection,
    npLoop colls = match sectionAll colls with
      | Except.error _ => Except.error ()
      | Except.ok secs => Except.ok secs.flatten
  | [] => rfl
  | c :: rest => by
    have hs : sectionAll (c :: rest) = match sectionStr c with
      | Except.error _ => Except.error ()
      | Except.ok s => match sectionAll rest with
        | Except.error _ => Except.error ()
        | Except.ok t => Except.ok (s :: t) := rfl
    rw [npLoop_cons, hs, npLoop_sections rest]
    unfold sectionStr
    cases hr : Collection.render_html c with
    | error e => rfl
    | ok p =>
      cases ha : sectionAll rest with
      | error e => rfl
      | ok secs => rfl

/-- Claim C5: a Collection with no surviving articles renders as the
empty string and contributes nothing to the composed document — removing
it from the collection list leaves the composed output unchanged, so no
heading and no body are emitted for it — while the composed document is
exactly the document shell around the concatenation, in collection order,
of one section (heading plus rendered articles) per collection whose
render is nonempty. -/
theorem C5_compose :
    (∀ c : Collection, c.articles = [] →
       Collection.render_html c = Except.ok ([], c) ∧ sectionStr c = Except.ok [])
    ∧ (∀ (l₁ l₂ : List Collection) (c : Collection), c.articles = [] →
       np_render (l₁ ++ c :: l₂) = np_render (l₁ ++ l₂))
    ∧ (∀ colls : List Collection,
       np_render colls = match sectionAll colls with
         | Except.error _ => Except.error ()
         | Except.ok secs =>
           Except.ok (str "<html><body>" ++ secs.flatten ++ str "</body></html>")) := by
  refine ⟨?_, ?_, ?_⟩
  · intro c h
    refine ⟨renderHtml_empty c h, ?_⟩
    unfold sectionStr
    rw [renderHtml_empty c h]
    rfl
  · intro l₁ l₂ c h
    unfold np_render
    rw [npLoop_append_skip c h l₁ l₂]
  · intro colls
    unfold np_render
    rw [npLoop_sections colls]
    cases ha : sectionAll colls with
    | error e => rfl
    | ok secs => rfl

/-! Witnesses: each claim theorem with hypotheses applied at a concrete
input. -/

theorem C1_dedup_unique_witness :
    downloadFeed (Collection.init (str "i") [] (str "n"))
      [(100, 5, [{ link := some (str "u"), title := some (str "t1"), author := none,
                   description := none, published_parsed := some 90 }]),
       (100, 5, [{ link := some (str "u"), title := some (str "t2"), author := none,
                   description := none, published_parsed := some 95 }])]
      = Except.ok
        { id := str "i", name := str "n", urls := [],
          articles := [{ url := str "u", title := str "t1", author := str "Unknown",
                         full_text := [], date := PyDate.dt 90 }],
          timedelta := none, fetch_original := none, do_readability := true,
          add_title := true, article_urls := [str "u"] }
    ∧ ([{ url := str "u", title := str "t1", author := str "Unknown",
          full_text := [], date := PyDate.dt 90 }] : List Article).countP
        (fun x => x.url == str "u") = 1
    ∧ processArticle 100
        { id := str "i", name := str "n", urls := [],
          articles := [{ url := str "u", title := str "t1", author := str "Unknown",
                         full_text := [], date := PyDate.dt 90 }],
          timedelta := none, fetch_original := none, do_readability := true,
          add_title := true, article_urls := [str "u"] }
        { url := str "u", title := str "t2", author := str "Unknown",
          full_text := [], date := PyDate.dt 95 }
      = Except.ok
        { id := str "i", name := str "n", urls := [],
          articles := [{ url := str "u", title := str "t1", author := str "Unknown",
                         full_text := [], date := PyDate.dt 90 }],
          timedelta := none, fetch_original := none, do_readability := true,
          add_title := true, article_urls := [str "u"] } := by
  have hrun : downloadFeed (Collection.init (str "i") [] (str "n"))
      [(100, 5, [{ link := some (str "u"), title := some (str "t1"), author := none,
                   description := none, published_parsed := some 90 }]),
       (100, 5, [{ link := some (str "u"), title := some (str "t2"), author := none,
                   description := none, published_parsed := some 95 }])]
      = Except.ok
        { id := str "i", name := str "n", urls := [],
          articles := [{ url := str "u", title := str "t1", author := str "Unknown",
                         full_text := [], date := PyDate.dt 90 }],
          timedelta := none, fetch_original := none, do_readability := true,
          add_title := true, article_urls := [str "u"] } := by decide
  refine ⟨hrun, ?_, ?_⟩
  · exact (C1_dedup_unique.1 (str "i") (str "n") [] _ _ hrun).2.2 (str "u") (by decide)
  · exact C1_dedup_unique.2 100 _ _ true (by decide) (by decide)

theorem C2_recency_window_witness :
    recencyKeep (some 86400) 100000 (PyDate.dt (100000 - 86400 - 1)) = Except.ok false
    ∧ recencyKeep (some 86400) 100000 (PyDate.dt (100000 - 86400 + 1)) = Except.ok true
    ∧ recencyKeep none 100000 (PyDate.dt 0) = Except.ok true
    ∧ processEntry 100000 5
        { Collection.init (str "i") [] (str "n") with timedelta := some 86400 }
        { link := some (str "u"), title := some (str "t"), author := none,
          description := none, published_parsed := some (100000 - 86400 - 1) }
      = Except.ok { Collection.init (str "i") [] (str "n") with timedelta := some 86400 } := by
  have h1 := C2_recency_window.1 100000 (100000 - 86400 - 1) 86400 (by decide)
  have h2 := C2_recency_window.1 100000 (100000 - 86400 + 1) 86400 (by decide)
  have h3 := C2_recency_window.2.2 100000 5
    { Collection.init (str "i") [] (str "n") with timedelta := some 86400 }
    { link := some (str "u"), title := some (str "t"), author := none,
      description := none, published_parsed := some (100000 - 86400 - 1) }
    (str "u") (str "t") (100000 - 86400 - 1) 86400 rfl (by decide) rfl rfl rfl (by decide)
  refine ⟨?_, ?_, C2_recency_window.2.1 100000 (PyDate.dt 0), ?_⟩
  · rw [h1]; decide
  · rw [h2]; decide
  · rw [h3]; decide

theorem C3_fresh_stable_sort_witness :
    (Collection.render_html
      { id := str "i", name := str "n", urls := [],
        articles :=
          [{ url := str "u1", title := str "T1", author := str "Unknown",
             full_text := str "B1", date := PyDate.dt 10 },
           { url := str "u2", title := str "T2", author := str "Unknown",
             full_text := str "B2", date := PyDate.dt 50 },
           { url := str "u3", title := str "T3", author := str "Unknown",
             full_text := str "B3", date := PyDate.dt 10 }],
        timedelta := none, fetch_original := none, do_readability := true,
        add_title := true, article_urls := [] }).map (fun p => p.2.articles)
      = Except.ok
          [{ url := str "u2", title := str "T2", author := str "Unknown",
             full_text := str "B2", date := PyDate.dt 50 },
           { url := str "u1", title := str "T1", author := str "Unknown",
             full_text := str "B1", date := PyDate.dt 10 },
           { url := str "u3", title := str "T3", author := str "Unknown",
             full_text := str "B3", date := PyDate.dt 10 }]
    ∧ dateDescending
        [{ url := str "u2", title := str "T2", author := str "Unknown",
           full_text := str "B2", date := PyDate.dt 50 },
         { url := str "u1", title := str "T1", author := str "Unknown",
           full_text := str "B1", date := PyDate.dt 10 },
         { url := str "u3", title := str "T3", author := str "Unknown",
           full_text := str "B3", date := PyDate.dt 10 }] := by
  cases hr : Collection.render_html
      { id := str "i", name := str "n", urls := [],
        articles :=
          [{ url := str "u1", title := str "T1", author := str "Unknown",
             full_text := str "B1", date := PyDate.dt 10 },
           { url := str "u2", title := str "T2", author := str "Unknown",
             full_text := str "B2", date := PyDate.dt 50 },
           { url := str "u3", title := str "T3", author := str "Unknown",
             full_text := str "B3", date := PyDate.dt 10 }],
        timedelta := none, fetch_original := none, do_readability := true,
        add_title := true, article_urls := [] } with
  | error e =>
    cases e
    exact absurd hr (by decide)
  | ok p =>
    have hth := C3_fresh_stable_sort _ p.1 p.2 hr
    have hsd : sortDesc
        [{ url := str "u1", title := str "T1", author := str "Unknown",
           full_text := str "B1", date := PyDate.dt 10 },
         { url := str "u2", title := str "T2", author := str "Unknown",
           full_text := str "B2", date := PyDate.dt 50 },
         { url := str "u3", title := str "T3", author := str "Unknown",
           full_text := str "B3", date := PyDate.dt 10 }]
        = [{ url := str "u2", title := str "T2", author := str "Unknown",
             full_text := str "B2", date := PyDate.dt 50 },
           { url := str "u1", title := str "T1", author := str "Unknown",
             full_text := str "B1", date := PyDate.dt 10 },
           { url := str "u3", title := str "T3", author := str "Unknown",
             full_text := str "B3", date := PyDate.dt 10 }] := by decide
    constructor
    · simp only [Except.map]
      rw [hth.1]
      decide
    · have hdd := hth.2.1
      rw [hth.1] at hdd
      have hx : sortDesc
          ({ id := str "i", name := str "n", urls := [],
             articles :=
               [{ url := str "u1", title := str "T1", author := str "Unknown",
                  full_text := str "B1", date := PyDate.dt 10 },
                { url := str "u2", title := str "T2", author := str "Unknown",
                  full_text := str "B2", date := PyDate.dt 50 },
                { url := str "u3", title := str "T3", author := str "Unknown",
                  full_text := str "B3", date := PyDate.dt 10 }],
             timedelta := none, fetch_original := none, do_readability := true,
             add_title := true, article_urls := [] } : Collection).articles
          = [{ url := str "u2", title := str "T2", author := str "Unknown",
               full_text := str "B2", date := PyDate.dt 50 },
             { url := str "u1", title := str "T1", author := str "Unknown",
               full_text := str "B1", date := PyDate.dt 10 },
             { url := str "u3", title := str "T3", author := str "Unknown",
               full_text := str "B3", date := PyDate.dt 10 }] := by decide
      rwa [hx] at hdd

theorem C4_fetch_isolation_witness :
    fetchOk (fun s => s) true
      { url := str "a", title := str "ta", author := str "Unknown",
        full_text := str "sum-a", date := PyDate.dt 0 } FetchOutcome.decodeError
      = { url := str "a", title := str "ta", author := str "Unknown",
          full_text := str "sum-a", date := PyDate.dt 0 }
    ∧ download_articles (fun s => s) true
        (fun u => if u = str "a" then FetchOutcome.decodeError
                  else FetchOutcome.success (str "body-b"))
        [{ url := str "a", title := str "ta", author := str "Unknown",
           full_text := str "sum-a", date := PyDate.dt 0 },
         { url := str "b", title := str "tb", author := str "Unknown",
           full_text := str "sum-b", date := PyDate.dt 0 }]
      = Except.ok
          ([{ url := str "a", title := str "ta", author := str "Unknown",
              full_text := str "sum-a", date := PyDate.dt 0 },
            { url := str "b", title := str "tb", author := str "Unknown",
              full_text := str "body-b", date := PyDate.dt 0 }],
           [str "UnicodeDecodeError (invalid charset) decoding: a"]) := by
  have h1 := (C4_fetch_isolation.1 (fun s => s) true
    { url := str "a", title := str "ta", author := str "Unknown",
      full_text := str "sum-a", date := PyDate.dt 0 }
    FetchOutcome.decodeError (Or.inl rfl)).1
  have h2 := C4_fetch_isolation.2 (fun s => s) true
    (fun u => if u = str "a" then FetchOutcome.decodeError
              else FetchOutcome.success (str "body-b"))
    [{ url := str "a", title := str "ta", author := str "Unknown",
       full_text := str "sum-a", date := PyDate.dt 0 },
     { url := str "b", title := str "tb", author := str "Unknown",
       full_text := str "sum-b", date := PyDate.dt 0 }] (by decide)
  refine ⟨h1, ?_⟩
  rw [h2]
  decide

theorem C5_compose_witness :
    np_render
      [{ id := str "c1", name := str "N1", urls := [],
         articles := [{ url := str "u", title := str "T", author := str "Unknown",
                        full_text := str "B", date := PyDate.dt 0 }],
         timedelta := none, fetch_original := none, do_readability := true,
         add_title := true, article_urls := [str "u"] },
       Collection.init (str "e") [] (str "E")]
      = np_render
      [{ id := str "c1", name := str "N1", urls := [],
         articles := [{ url := str "u", title := str "T", author := str "Unknown",
                        full_text := str "B", date := PyDate.dt 0 }],
         timedelta := none, fetch_original := none, do_readability := true,
         add_title := true, article_urls := [str "u"] }]
    ∧ Collection.render_html (Collection.init (str "e") [] (str "E"))
        = Except.ok ([], Collection.init (str "e") [] (str "E"))
    ∧ sectionStr (Collection.init (str "e") [] (str "E")) = Except.ok [] := by
  have h := C5_compose
  exact ⟨h.2.1
      [{ id := str "c1", name := str "N1", urls := [],
         articles := [{ url := str "u", title := str "T", author := str "Unknown",
                        full_text := str "B", date := PyDate.dt 0 }],
         timedelta := none, fetch_original := none, do_readability := true,
         add_title := true, article_urls := [str "u"] }] []
      (Collection.init (str "e") [] (str "E")) rfl,
    (h.1 (Collection.init (str "e") [] (str "E")) rfl).1,
    (h.1 (Collection.init (str "e") [] (str "E")) rfl).2⟩

theorem C6_title_splice_witness :
    renderArticle false
      { url := str "u", title := str "T", author := str "Unknown",
        full_text := str "<h1>T</h1><p>x</p></h1>y", date := PyDate.dt 0 }
      = Except.ok (articleDivPre ++ str "<h1>T" ++ h1close
          ++ str "<em>Thursday, January 01</em>" ++ str "<p>x</p></h1>y" ++ articleDivSuf)
    ∧ renderArticle false
      { url := str "u", title := str "T", author := str "Unknown",
        full_text := str "<p>no heading</p>", date := PyDate.dt 0 }
      = Except.ok (articleDivPre ++ str "<p>no heading</p>" ++ articleDivSuf) := by
  have h1 := (C6_title_splice
    { url := str "u", title := str "T", author := str "Unknown",
      full_text := str "<h1>T</h1><p>x</p></h1>y", date := PyDate.dt 0 }
    (str "Thursday, January 01") (by decide)).1
    (str "<h1>T") (str "<p>x</p></h1>y") (by decide) (by decide)
  have h2 := (C6_title_splice
    { url := str "u", title := str "T", author := str "Unknown",
      full_text := str "<p>no heading</p>", date := PyDate.dt 0 }
    (str "Thursday, January 01") (by decide)).2 (by decide)
  constructor
  · rw [h1]; decide
  · rw [h2]

theorem C7_config_abort_witness :
    set_allowed_timedelta (str "fortnight") = Except.error ()
    ∧ mainModel none
        [{ sectionName := str "feed.x", displayName := str "X", url := str "http://a",
           last := some (str "fortnight"), fetch_original := none,
           add_title := none, readability := none }]
        (fun _ => []) (fun _ => FetchOutcome.success []) (fun s => s) 0 0
      = Except.error () := by
  have hbad := C7_config_abort.2.1 (str "fortnight")
    (by decide) (by decide) (by decide) (by decide)
  refine ⟨hbad, ?_⟩
  exact C7_config_abort.2.2 none
    [{ sectionName := str "feed.x", displayName := str "X", url := str "http://a",
       last := some (str "fortnight"), fetch_original := none,
       add_title := none, readability := none }]
    { sectionName := str "feed.x", displayName := str "X", url := str "http://a",
      last := some (str "fortnight"), fetch_original := none,
      add_title := none, readability := none }
    (str "fortnight") (by decide) (by decide) hbad
    (fun _ => []) (fun _ => FetchOutcome.success []) (fun s => s) 0 0

theorem C8_date_fallback_witness :
    (mkArticle (str "u") (some (str "t")) none none none 37).date = PyDate.dateOnly 37
    ∧ getdatestr { url := str "u", title := str "t", author := str "Unknown",
                   full_text := [], date := PyDate.dateOnly 37 } = Except.error ()
    ∧ recencyKeep (some 86400) 1000 (PyDate.dateOnly 37) = Except.error ()
    ∧ recencyKeep none 1000 (PyDate.dateOnly 37) = Except.ok true := by
  exact ⟨C8_date_fallback.1 (str "u") (some (str "t")) none none 37,
    C8_date_fallback.2.1 _ 37 rfl,
    C8_date_fallback.2.2.1 86400 1000 37 (by decide),
    C8_date_fallback.2.2.2 1000 37⟩

theorem C9_author_sentinel_witness :
    (mkArticle (str "u") (some (str "t")) none none none 0).author = str "Unknown"
    ∧ (mkArticle (str "u") (some (str "t")) (some []) none none 0).author = str "Unknown"
    ∧ (mkArticle (str "u") (some (str "t")) (some (str "Ada")) none none 0).author = str "Ada"
    ∧ emSubtitle { url := str "u", title := str "t", author := str "Unknown",
                   full_text := [], date := PyDate.dt 0 } (str "D") = str "<em>D</em>"
    ∧ emSubtitle { url := str "u", title := str "t", author := str "Ada",
                   full_text := [], date := PyDate.dt 0 } (str "D")
      = str "<em>Ada, D</em>" := by
  have h5 := C9_author_sentinel.2.2.2
    { url := str "u", title := str "t", author := str "Ada",
      full_text := [], date := PyDate.dt 0 } (str "D") (by decide)
  refine ⟨(C9_author_sentinel.1 (str "u") (some (str "t")) none none 0).1,
    (C9_author_sentinel.1 (str "u") (some (str "t")) none none 0).2,
    C9_author_sentinel.2.1 (str "u") (str "Ada") (some (str "t")) none none 0 (by decide),
    ?_, ?_⟩
  · have h4 := C9_author_sentinel.2.2.1
      { url := str "u", title := str "t", author := str "Unknown",
        full_text := [], date := PyDate.dt 0 } (str "D") rfl
    rw [h4]; decide
  · rw [h5]; decide

theorem C10_get_full_text_frame_witness :
    get_full_text (fun s => s) false
      { url := str "u", title := str "T", author := str "A",
        full_text := str "summary", date := PyDate.dt 7 }
      (FetchOutcome.success (str "H"))
      = Except.ok ({ url := str "u", title := str "T", author := str "A",
                     full_text := str "H", date := PyDate.dt 7 }, [])
    ∧ (str "u" = str "u" ∧ str "T" = str "T" ∧ str "A" = str "A"
        ∧ PyDate.dt 7 = PyDate.dt 7)
    ∧ get_full_text (fun s => s) false
      { url := str "u", title := str "T", author := str "A",
        full_text := str "summary", date := PyDate.dt 7 }
      FetchOutcome.httpError
      = Except.ok ({ url := str "u", title := str "T", author := str "A",
                     full_text := str "summary", date := PyDate.dt 7 },
                   fetchLog { url := str "u", title := str "T", author := str "A",
                              full_text := str "summary", date := PyDate.dt 7 }
                     FetchOutcome.httpError) := by
  have hok : get_full_text (fun s => s) false
      { url := str "u", title := str "T", author := str "A",
        full_text := str "summary", date := PyDate.dt 7 }
      (FetchOutcome.success (str "H"))
      = Except.ok ({ url := str "u", title := str "T", author := str "A",
                     full_text := str "H", date := PyDate.dt 7 }, []) := by decide
  have hframe := (C10_get_full_text_frame (fun s => s) false
    { url := str "u", title := str "T", author := str "A",
      full_text := str "summary", date := PyDate.dt 7 }
    (FetchOutcome.success (str "H"))).1
    ({ url := str "u", title := str "T", author := str "A",
       full_text := str "H", date := PyDate.dt 7 }, []) hok
  exact ⟨hok, hframe,
    (C10_get_full_text_frame (fun s => s) false
      { url := str "u", title := str "T", author := str "A",
        full_text := str "summary", date := PyDate.dt 7 }
      FetchOutcome.httpError).2 (Or.inr rfl)⟩
